import Mathlib

/-!
Shallow embedding of the TicTacToe frontend controller
(`src/frontend/src/classes/interactable/TicTacToeAreaController.ts`) and the
leaderboard component
(`src/frontend/src/components/Town/interactables/Leaderboard.tsx`).

Players are identified by their id strings; the repository holds one
`PlayerController` object per player id, so the source's reference equality
between player objects is embedded as equality of ids.  TypeScript values of
type `string | undefined` are embedded as `Option String`, and JavaScript
truthiness of such a value (`undefined` and `""` are falsy) is made explicit
where the source branches on it.

Throwing accessors and `makeMove` are embedded with `Except String`: an
`Except.error e` value means the source throws `new Error(e)` before the
transport is contacted, and `Except.ok cmd` for `makeMove` means the move
command `cmd` is handed to `townController.sendInteractableCommand`.

The base class `GameAreaController` is not part of the analysed sources; the
pieces of it this file needs (`players`, `_instanceID`, the effect of
`super._updateFrom`) are modelled from the specification and marked as such.
-/

set_option autoImplicit false

/-- Game status, from the `GameStatus` union of the socket types. -/
inductive GameStatus
  | WAITING_TO_START
  | IN_PROGRESS
  | OVER
deriving DecidableEq, Repr

/-- A TicTacToe game piece, `'X' | 'O'` in the source. -/
inductive TicTacToePiece
  | X
  | O
deriving DecidableEq, Repr

/-- `TicTacToeCell = 'X' | 'O' | undefined`. -/
abbrev TicTacToeCell := Option TicTacToePiece

/-- The derived board: a 3x3 grid of cells, indexed row then column. -/
abbrev TicTacToeBoard := Fin 3 → Fin 3 → TicTacToeCell

/-- A move as delivered by the authority: piece plus grid position
(`TicTacToeGridPosition ∈ {0,1,2}` is embedded as `Fin 3`). -/
structure TicTacToeMove where
  gamePiece : TicTacToePiece
  row : Fin 3
  col : Fin 3
deriving DecidableEq, Repr

/-- The authoritative `TicTacToeGameState`: status, the two seat ids, the
ordered move history and the winner id. -/
structure TicTacToeGameState where
  status : GameStatus
  x : Option String
  o : Option String
  moves : List TicTacToeMove
  winner : Option String
deriving DecidableEq, Repr

/-- A `GameInstance`: its id, the ids of the players in the game, and state. -/
structure GameInstance where
  id : String
  players : List String
  state : TicTacToeGameState
deriving DecidableEq, Repr

/-- The `GameArea<TicTacToeGameState>` model held by the controller. -/
structure GameAreaModel where
  id : String
  game : Option GameInstance
deriving DecidableEq, Repr

/-- JavaScript truthiness of a `string | undefined` value: `undefined` and
the empty string are falsy, every other string is truthy. -/
def jsTruthy : Option String → Bool
  | none => false
  | some s => !(s == "")

/-- `PLAYER_NOT_IN_GAME_ERROR` from the controller source. -/
def PLAYER_NOT_IN_GAME_ERROR : String := "Player is not in game"

/-- `NO_GAME_IN_PROGRESS_ERROR` from the controller source. -/
def NO_GAME_IN_PROGRESS_ERROR : String := "No game in progress"

/-- The `GameMoveCommand<TicTacToeMove>` built by `makeMove`: type tag
`'GameMove'` (implicit), the session id and the move payload. -/
structure GameMoveCommand where
  gameID : String
  gamePiece : TicTacToePiece
  row : Fin 3
  col : Fin 3
deriving DecidableEq, Repr

/-- State of a `TicTacToeAreaController`: the held model (`this._model`),
the viewing player (`this._townController.ourPlayer`, by id) and the game
session identifier (`this._instanceID`, a base-class field issued on join). -/
structure TicTacToeAreaController where
  model : GameAreaModel
  ourPlayer : String
  instanceID : Option String
deriving DecidableEq, Repr

/-- One step of board reconstruction: `board[currMove.row][currMove.col] =
currMove.gamePiece` (line 46 of the controller). -/
def applyMove (b : TicTacToeBoard) (mv : TicTacToeMove) : TicTacToeBoard :=
  fun r c => if r = mv.row ∧ c = mv.col then some mv.gamePiece else b r c

/-- Replay a move history onto the all-empty board (the loop of the `board`
getter, lines 38–47). -/
def boardOfMoves (moves : List TicTacToeMove) : TicTacToeBoard :=
  moves.foldl applyMove (fun _ _ => none)

namespace TicTacToeAreaController

/-- Modelled from the spec: `GameAreaController.players` (base class, not in
the analysed sources) — the roster of players of the current game instance,
resolved through the town's identity directory and identified here by id;
empty when no game is present. -/
def players (c : TicTacToeAreaController) : List String :=
  (c.model.game.map GameInstance.players).getD []

/-- `this._model.game?.state.moves || []`, shared by `board` and
`moveCount`.  A present `moves` array is always truthy (even `[]` is truthy
in JavaScript), so `|| []` only replaces `undefined`. -/
def gameMoves (c : TicTacToeAreaController) : List TicTacToeMove :=
  (c.model.game.map (fun g => g.state.moves)).getD []

/-- The `board` getter (lines 37–49). -/
def board (c : TicTacToeAreaController) : TicTacToeBoard :=
  boardOfMoves c.gameMoves

/-- The `x` getter (lines 54–56): the roster player whose id the game state
names as the X seat (`this.players.find(player => this._model.game?.state.x
=== player.id)`). -/
def x (c : TicTacToeAreaController) : Option String :=
  c.players.find? (fun p => (c.model.game.bind (fun g => g.state.x)) == some p)

/-- The `o` getter (lines 61–63). -/
def o (c : TicTacToeAreaController) : Option String :=
  c.players.find? (fun p => (c.model.game.bind (fun g => g.state.o)) == some p)

/-- The `moveCount` getter (lines 68–71). -/
def moveCount (c : TicTacToeAreaController) : Nat :=
  c.gameMoves.length

/-- The `winner` getter (lines 76–79). -/
def winner (c : TicTacToeAreaController) : Option String :=
  c.players.find? (fun p => (c.model.game.bind (fun g => g.state.winner)) == some p)

/-- The `whoseTurn` getter (lines 85–98): when a game is held and in
progress, the first roster player satisfying either branch of the loop body
(`moveCount` even, `gameState.x` truthy and the ids equal; or `moveCount`
odd, `gameState.o` truthy and the ids equal); `undefined` otherwise. -/
def whoseTurn (c : TicTacToeAreaController) : Option String :=
  match c.model.game with
  | some g =>
    if g.state.status = GameStatus.IN_PROGRESS then
      c.players.find? (fun p =>
        ((c.moveCount % 2 == 0) && jsTruthy g.state.x && (g.state.x == some p))
        || (!(c.moveCount % 2 == 0) && jsTruthy g.state.o && (g.state.o == some p)))
    else none
  | none => none

/-- The `isOurTurn` getter (lines 104–110): `false` unless a game is held
with status `IN_PROGRESS`, otherwise `ourPlayer === this.whoseTurn`. -/
def isOurTurn (c : TicTacToeAreaController) : Bool :=
  match c.model.game with
  | some g =>
    if g.state.status = GameStatus.IN_PROGRESS then some c.ourPlayer == c.whoseTurn
    else false
  | none => false

/-- The `isPlayer` getter (lines 115–118): the viewer's id appears in the
roster. -/
def isPlayer (c : TicTacToeAreaController) : Bool :=
  c.players.any (fun p => p == c.ourPlayer)

/-- The `gamePiece` getter (lines 125–131): throws `PLAYER_NOT_IN_GAME_ERROR`
when the viewer is not a player, otherwise `'X'` exactly when
`ourPlayer === this.x` and `'O'` in every other case. -/
def gamePiece (c : TicTacToeAreaController) : Except String TicTacToePiece :=
  if !c.isPlayer then Except.error PLAYER_NOT_IN_GAME_ERROR
  else if some c.ourPlayer == c.x then Except.ok TicTacToePiece.X
  else Except.ok TicTacToePiece.O

/-- The `status` getter (lines 137–139):
`this._model.game?.state.status || 'WAITING_TO_START'`.  Every status string
is non-empty hence truthy, so `||` defaults exactly the missing-game case. -/
def status (c : TicTacToeAreaController) : GameStatus :=
  (c.model.game.map (fun g => g.state.status)).getD GameStatus.WAITING_TO_START

/-- The `isActive()` method (lines 144–146). -/
def isActive (c : TicTacToeAreaController) : Bool :=
  c.status == GameStatus.IN_PROGRESS

/-- The guard expression of line 210, `!this.isActive`.  The source does not
call the method: the expression denotes the method object itself, and a
function object is always truthy in JavaScript, so the tested value is the
constant `true` and the negated guard can never fire. -/
def isActiveMethodReference : Bool := true

/-- `makeMove` (lines 209–229).  `Except.ok cmd` means the command is handed
to `townController.sendInteractableCommand`; `Except.error e` means the call
throws `e` before the transport is contacted. -/
def makeMove (c : TicTacToeAreaController) (row col : Fin 3) :
    Except String GameMoveCommand :=
  if !isActiveMethodReference then Except.error NO_GAME_IN_PROGRESS_ERROR
  else if !(jsTruthy c.instanceID) then Except.error NO_GAME_IN_PROGRESS_ERROR
  else
    match c.gamePiece with
    | Except.error e => Except.error e
    | Except.ok piece =>
      Except.ok { gameID := c.instanceID.getD "", gamePiece := piece, row := row, col := col }

end TicTacToeAreaController

/-- `_areBoardEqual` (lines 187–196): cell-by-cell comparison of the two
3x3 boards. -/
def _areBoardEqual (board1 board2 : TicTacToeBoard) : Bool :=
  (List.finRange 3).all fun i => (List.finRange 3).all fun j => board1 i j == board2 i j

/-- The two change notifications `_updateFrom` may emit. -/
inductive TicTacToeEvent
  | boardChanged (board : TicTacToeBoard)
  | turnChanged (isOurTurn : Bool)

namespace TicTacToeAreaController

/-- `_updateFrom` (lines 160–174): capture the old derived board and turn
flag, apply the new snapshot, then emit `boardChanged` when the recomputed
board differs cell-wise and `turnChanged` when the turn flag flipped.
Modelled from the spec: `super._updateFrom` (base class, not in the analysed
sources) replaces the held snapshot wholesale; the `gameUpdated`/`gameEnd`
notifications it may emit are outside this embedding. -/
def _updateFrom (c : TicTacToeAreaController) (newModel : GameAreaModel) :
    TicTacToeAreaController × List TicTacToeEvent :=
  let oldBoard := c.board
  let oldIsOurTurn := c.isOurTurn
  let c' : TicTacToeAreaController := { c with model := newModel }
  let boardEvents :=
    if !(_areBoardEqual oldBoard c'.board) then [TicTacToeEvent.boardChanged c'.board] else []
  let turnEvents :=
    if oldIsOurTurn != c'.isOurTurn then [TicTacToeEvent.turnChanged c'.isOurTurn] else []
  (c', boardEvents ++ turnEvents)

end TicTacToeAreaController

/-- A `GameResult`: the game id and the scores object, embedded as an
insertion-ordered association list.  A JavaScript object cannot hold the
same key twice, so well-formed inputs have pairwise-distinct keys. -/
structure GameResult where
  gameID : String
  scores : List (String × Int)
deriving DecidableEq, Repr

/-- `PlayerStats` from the leaderboard component. -/
structure PlayerStats where
  name : String
  wins : Nat
  losses : Nat
  ties : Nat
deriving DecidableEq, Repr

namespace Leaderboard

/-- Property lookup `scores[key]` on the scores object. -/
def lookupScore (scores : List (String × Int)) (key : String) : Option Int :=
  (scores.find? (fun e => e.1 == key)).map (fun e => e.2)

/-- JavaScript `>` on two `number | undefined` values: any comparison with
`undefined` is false. -/
def jsGT : Option Int → Option Int → Bool
  | some a, some b => decide (b < a)
  | _, _ => false

/-- JavaScript `<` on two `number | undefined` values. -/
def jsLT : Option Int → Option Int → Bool
  | some a, some b => decide (a < b)
  | _, _ => false

/-- The body of the inner `players.forEach(opponent => ...)` loop (lines
35–45): skip the player themself, then compare the two scores. -/
def tallyStep (scores : List (String × Int)) (player : String)
    (playerScore : Option Int) (acc : PlayerStats) (e : String × Int) : PlayerStats :=
  if player == e.1 then acc
  else if jsGT playerScore (lookupScore scores e.1) then { acc with wins := acc.wins + 1 }
  else if jsLT playerScore (lookupScore scores e.1) then { acc with losses := acc.losses + 1 }
  else { acc with ties := acc.ties + 1 }

/-- The inner loop over `players = Object.keys(scores)`: iterating the
entries of the scores object visits exactly its keys in insertion order. -/
def tallyAgainst (scores : List (String × Int)) (player : String)
    (playerScore : Option Int) (st : PlayerStats) : PlayerStats :=
  scores.foldl (tallyStep scores player playerScore) st

/-- `statsMap.get` on the insertion-ordered map. -/
def mapGet (m : List (String × PlayerStats)) (key : String) : Option PlayerStats :=
  (m.find? (fun e => e.1 == key)).map (fun e => e.2)

/-- `statsMap.set`: a JavaScript `Map` updates an existing key in place
(keeping its position) and appends a new key. -/
def mapSet (m : List (String × PlayerStats)) (key : String) (v : PlayerStats) :
    List (String × PlayerStats) :=
  if m.any (fun e => e.1 == key) then m.map (fun e => if e.1 == key then (key, v) else e)
  else m ++ [(key, v)]

/-- The outer `players.forEach(player => ...)` body for one result (lines
30–48): read or default the player's stats, tally against every opponent in
the result, and write the stats back. -/
def addResult (m : List (String × PlayerStats)) (result : GameResult) :
    List (String × PlayerStats) :=
  result.scores.foldl
    (fun m e =>
      let player := e.1
      let currentStats :=
        (mapGet m player).getD { name := player, wins := 0, losses := 0, ties := 0 }
      let playerScore := lookupScore result.scores player
      mapSet m player (tallyAgainst result.scores player playerScore currentStats))
    m

/-- `results.forEach(result => ...)` (lines 26–49): accumulate the stats map
across all results. -/
def statsMap (results : List GameResult) : List (String × PlayerStats) :=
  results.foldl addResult []

/-- `Array.from(statsMap.values()).sort((a, b) => b.wins - a.wins)` (line
51): with that comparator, `a` may precede `b` exactly when
`b.wins - a.wins ≤ 0`, i.e. when `b.wins ≤ a.wins`.  `Array.prototype.sort`
is stable, and a stable sort's output is uniquely determined by the
comparator, so the stable `List.insertionSort` computes the same list. -/
def sortedStats (results : List GameResult) : List PlayerStats :=
  List.insertionSort (fun a b => b.wins ≤ a.wins) ((statsMap results).map (fun e => e.2))

/-- Follows the claim's words: the wins player `p` gains from one result —
one per opponent in that result with a strictly lower score; none when `p`
does not appear in the result. -/
def specWinsIn (r : GameResult) (p : String) : Nat :=
  match lookupScore r.scores p with
  | none => 0
  | some sp => r.scores.countP (fun e => !(e.1 == p) && decide (e.2 < sp))

/-- Follows the claim's words: losses gained from one result. -/
def specLossesIn (r : GameResult) (p : String) : Nat :=
  match lookupScore r.scores p with
  | none => 0
  | some sp => r.scores.countP (fun e => !(e.1 == p) && decide (sp < e.2))

/-- Follows the claim's words: ties gained from one result. -/
def specTiesIn (r : GameResult) (p : String) : Nat :=
  match lookupScore r.scores p with
  | none => 0
  | some sp => r.scores.countP (fun e => !(e.1 == p) && (e.2 == sp))

/-- Follows the claim's words: the accumulated tally of player `p` over all
results. -/
def specStats (results : List GameResult) (p : String) : PlayerStats :=
  { name := p
    wins := (results.map (fun r => specWinsIn r p)).sum
    losses := (results.map (fun r => specLossesIn r p)).sum
    ties := (results.map (fun r => specTiesIn r p)).sum }

/-- Insert the keys `ks` into `acc`, appending each key not already present
(first-encounter order, as a JavaScript `Map` records keys). -/
def insertAll (acc : List String) (ks : List String) : List String :=
  ks.foldl (fun a p => if p ∈ a then a else a ++ [p]) acc

/-- The players encountered across all results, in first-encounter order. -/
def encountered (results : List GameResult) : List String :=
  results.foldl (fun acc r => insertAll acc (r.scores.map Prod.fst)) []

end Leaderboard

/-! ## Board equality helper -/

theorem areBoardEqual_eq_true_iff (board1 board2 : TicTacToeBoard) :
    _areBoardEqual board1 board2 = true ↔ ∀ i j : Fin 3, board1 i j = board2 i j := by
  simp [_areBoardEqual, List.all_eq_true, List.mem_finRange]

/-! ## C9: safe defaults when no game object is present -/

/-- C9: for every model in which no game object is present, the derived
accessors return safe defaults rather than failing: `status` returns
`WAITING_TO_START`, the board is the all-empty 3x3 grid, `moveCount` is 0,
and `isOurTurn` is false. -/
theorem no_game_defaults (c : TicTacToeAreaController) (h : c.model.game = none) :
    c.status = GameStatus.WAITING_TO_START
    ∧ (∀ r col : Fin 3, c.board r col = none)
    ∧ c.moveCount = 0
    ∧ c.isOurTurn = false := by
  refine ⟨?_, ?_, ?_, ?_⟩ <;>
    simp [TicTacToeAreaController.status, TicTacToeAreaController.board,
      TicTacToeAreaController.gameMoves, TicTacToeAreaController.moveCount,
      TicTacToeAreaController.isOurTurn, boardOfMoves, h]

/-- A controller holding a model with no game object. -/
def noGameController : TicTacToeAreaController :=
  { model := { id := "area1", game := none }, ourPlayer := "p1", instanceID := none }

/-- Witness for C9 at a concrete controller with no game. -/
theorem no_game_defaults_witness :
    noGameController.model.game = none
    ∧ (noGameController.status = GameStatus.WAITING_TO_START
      ∧ (∀ r col : Fin 3, noGameController.board r col = none)
      ∧ noGameController.moveCount = 0
      ∧ noGameController.isOurTurn = false) :=
  ⟨rfl, no_game_defaults noGameController rfl⟩

/-! ## C10: gamePiece is total for seated viewers -/

/-- C10: whenever `isPlayer` is true, `gamePiece` never throws; it returns
`'X'` exactly when the viewer equals the X-seat player and `'O'` in every
other case, including when the viewer matches neither seat reference. -/
theorem gamePiece_of_isPlayer (c : TicTacToeAreaController) (h : c.isPlayer = true) :
    (c.gamePiece = Except.ok TicTacToePiece.X ↔ some c.ourPlayer = c.x)
    ∧ (some c.ourPlayer ≠ c.x → c.gamePiece = Except.ok TicTacToePiece.O) := by
  have hg : c.gamePiece = if some c.ourPlayer == c.x then Except.ok TicTacToePiece.X
      else Except.ok TicTacToePiece.O := by
    simp [TicTacToeAreaController.gamePiece, h]
  cases hbeq : (some c.ourPlayer == c.x) with
  | true =>
    have hx : some c.ourPlayer = c.x := by simpa using hbeq
    simp [hg, hbeq, hx]
  | false =>
    have hx : ¬ some c.ourPlayer = c.x := by simpa using hbeq
    simp [hg, hbeq, hx]

/-- A controller whose viewer holds the O seat. -/
def oSeatController : TicTacToeAreaController :=
  { model := { id := "area1",
               game := some { id := "g1", players := ["px", "po"],
                              state := { status := GameStatus.IN_PROGRESS, x := some "px",
                                         o := some "po", moves := [], winner := none } } },
    ourPlayer := "po", instanceID := none }

/-- Witness for C10 at a concrete controller whose viewer is seated as O. -/
theorem gamePiece_of_isPlayer_witness :
    oSeatController.isPlayer = true
    ∧ ((oSeatController.gamePiece = Except.ok TicTacToePiece.X
          ↔ some oSeatController.ourPlayer = oSeatController.x)
      ∧ (some oSeatController.ourPlayer ≠ oSeatController.x →
          oSeatController.gamePiece = Except.ok TicTacToePiece.O)) :=
  ⟨rfl, gamePiece_of_isPlayer oSeatController rfl⟩

/-! ## C8: makeMove fails for a viewer who is not seated -/

/-- C8: when the status and session-identifier preconditions hold but the
viewer is not one of the two seated players, `makeMove` fails with
`PLAYER_NOT_IN_GAME_ERROR` (raised while the viewer's piece is determined)
and no move command is handed to the transport (the result is an
`Except.error`, never an `Except.ok` command). -/
theorem makeMove_not_seated (c : TicTacToeAreaController) (row col : Fin 3)
    (g : GameInstance) (hg : c.model.game = some g)
    (_hstatus : g.state.status = GameStatus.IN_PROGRESS)
    (hid : jsTruthy c.instanceID = true)
    (hroster : g.players = g.state.x.toList ++ g.state.o.toList)
    (hx : g.state.x ≠ some c.ourPlayer)
    (ho : g.state.o ≠ some c.ourPlayer) :
    c.makeMove row col = Except.error PLAYER_NOT_IN_GAME_ERROR := by
  have hmem : ∀ p ∈ g.players, ¬((p == c.ourPlayer) = true) := by
    intro p hp hbeq
    have hpe : p = c.ourPlayer := by simpa using hbeq
    subst hpe
    rw [hroster] at hp
    rcases List.mem_append.mp hp with hxm | hom
    · exact hx (by simpa using hxm)
    · exact ho (by simpa using hom)
  have hnp : c.isPlayer = false := by
    rw [TicTacToeAreaController.isPlayer]
    rw [show c.players = g.players by
      simp [TicTacToeAreaController.players, hg]]
    rcases hany : g.players.any (fun p => p == c.ourPlayer) with _ | _
    · rfl
    · rcases List.any_eq_true.mp hany with ⟨p, hp, hbeq⟩
      exact absurd hbeq (hmem p hp)
  simp [TicTacToeAreaController.makeMove, TicTacToeAreaController.isActiveMethodReference,
    hid, TicTacToeAreaController.gamePiece, hnp]

/-- A controller whose viewer is a mere observer of an in-progress game. -/
def observerController : TicTacToeAreaController :=
  { model := { id := "area1",
               game := some { id := "g1", players := ["p1", "p2"],
                              state := { status := GameStatus.IN_PROGRESS, x := some "p1",
                                         o := some "p2", moves := [], winner := none } } },
    ourPlayer := "p3", instanceID := some "g1" }

/-- Witness for C8 at a concrete observer controller. -/
theorem makeMove_not_seated_witness :
    observerController.model.game =
        some { id := "g1", players := ["p1", "p2"],
               state := { status := GameStatus.IN_PROGRESS, x := some "p1",
                          o := some "p2", moves := [], winner := none } }
    ∧ observerController.makeMove 0 1 = Except.error PLAYER_NOT_IN_GAME_ERROR :=
  ⟨rfl, makeMove_not_seated observerController 0 1 _ rfl rfl rfl rfl (by decide) (by decide)⟩

/-! ## C1: the status guard of makeMove never fires -/

/-- A controller holding a finished game while a session id is still held
and the viewer is seated as X. -/
def gameOverController : TicTacToeAreaController :=
  { model := { id := "area1",
               game := some { id := "game1", players := ["p1", "p2"],
                              state := { status := GameStatus.OVER, x := some "p1",
                                         o := some "p2", moves := [], winner := some "p1" } } },
    ourPlayer := "p1", instanceID := some "game1" }

/-- C1 (code bug): with status `OVER` and a session identifier held,
`makeMove` does NOT throw `NO_GAME_IN_PROGRESS_ERROR`: the guard tests
`!this.isActive`, a reference to the method rather than a call, which is a
truthy function object, so the move command is built and handed to the
transport, contradicting the claim (and the method's own doc comment). -/
theorem makeMove_sends_despite_game_over :
    gameOverController.status = GameStatus.OVER
    ∧ jsTruthy gameOverController.instanceID = true
    ∧ gameOverController.makeMove 0 0 =
        Except.ok { gameID := "game1", gamePiece := TicTacToePiece.X, row := 0, col := 0 } :=
  ⟨rfl, rfl, rfl⟩

/-! ## C2 and C3: change-detection in _updateFrom -/

/-- C2: applying a new snapshot emits `boardChanged` if and only if at least
one of the 9 cells of the derived board computed after the update differs
from the corresponding cell of the board computed before the update; in
particular no event is emitted when the two boards are cell-wise identical,
even when the snapshot object itself is different. -/
theorem updateFrom_boardChanged_iff (c : TicTacToeAreaController) (m : GameAreaModel) :
    (∃ b, TicTacToeEvent.boardChanged b ∈ (c._updateFrom m).2)
    ↔ ∃ i j : Fin 3, ((c._updateFrom m).1).board i j ≠ c.board i j := by
  have hfst : (c._updateFrom m).1 = { c with model := m } := rfl
  rw [hfst]
  show (∃ b, TicTacToeEvent.boardChanged b ∈
      ((if !(_areBoardEqual c.board ({ c with model := m } : TicTacToeAreaController).board)
        then [TicTacToeEvent.boardChanged ({ c with model := m } : TicTacToeAreaController).board]
        else []) ++
       (if c.isOurTurn != ({ c with model := m } : TicTacToeAreaController).isOurTurn
        then [TicTacToeEvent.turnChanged ({ c with model := m } : TicTacToeAreaController).isOurTurn]
        else []))) ↔ _
  have hturn : ∀ b, TicTacToeEvent.boardChanged b ∉
      (if c.isOurTurn != ({ c with model := m } : TicTacToeAreaController).isOurTurn
       then [TicTacToeEvent.turnChanged ({ c with model := m } : TicTacToeAreaController).isOurTurn]
       else []) := by
    intro b
    split <;> simp
  cases hEq : _areBoardEqual c.board ({ c with model := m } : TicTacToeAreaController).board with
  | true =>
    have hall := (areBoardEqual_eq_true_iff _ _).mp hEq
    simp only [Bool.not_true, Bool.false_eq_true, if_false, List.nil_append]
    constructor
    · rintro ⟨b, hb⟩
      exact absurd hb (hturn b)
    · rintro ⟨i, j, hij⟩
      exact absurd (hall i j).symm hij
  | false =>
    simp only [Bool.not_false, if_true]
    constructor
    · rintro _
      by_contra hno
      push_neg at hno
      have : _areBoardEqual c.board ({ c with model := m } : TicTacToeAreaController).board
          = true := by
        rw [areBoardEqual_eq_true_iff]
        intro i j
        exact (hno i j).symm
      rw [hEq] at this
      exact Bool.false_ne_true this
    · intro _
      exact ⟨_, List.mem_append_left _ (List.mem_singleton_self _)⟩

/-- C3: applying a new snapshot emits `turnChanged`, carrying the new
boolean, if and only if the value of `isOurTurn` computed after the update
differs from its value computed before the update. -/
theorem updateFrom_turnChanged_iff (c : TicTacToeAreaController) (m : GameAreaModel) (t : Bool) :
    TicTacToeEvent.turnChanged t ∈ (c._updateFrom m).2
    ↔ (c.isOurTurn ≠ ((c._updateFrom m).1).isOurTurn
        ∧ t = ((c._updateFrom m).1).isOurTurn) := by
  have hfst : (c._updateFrom m).1 = { c with model := m } := rfl
  rw [hfst]
  show TicTacToeEvent.turnChanged t ∈
      ((if !(_areBoardEqual c.board ({ c with model := m } : TicTacToeAreaController).board)
        then [TicTacToeEvent.boardChanged ({ c with model := m } : TicTacToeAreaController).board]
        else []) ++
       (if c.isOurTurn != ({ c with model := m } : TicTacToeAreaController).isOurTurn
        then [TicTacToeEvent.turnChanged ({ c with model := m } : TicTacToeAreaController).isOurTurn]
        else [])) ↔ _
  have hboard : TicTacToeEvent.turnChanged t ∉
      (if !(_areBoardEqual c.board ({ c with model := m } : TicTacToeAreaController).board)
       then [TicTacToeEvent.boardChanged ({ c with model := m } : TicTacToeAreaController).board]
       else []) := by
    split <;> simp
  rw [List.mem_append]
  cases hne : (c.isOurTurn != ({ c with model := m } : TicTacToeAreaController).isOurTurn) with
  | true =>
    have hne' : c.isOurTurn ≠ ({ c with model := m } : TicTacToeAreaController).isOurTurn :=
      bne_iff_ne.mp hne
    simp only [if_true, List.mem_singleton]
    constructor
    · rintro (hb | ht)
      · exact absurd hb hboard
      · exact ⟨hne', by injection ht⟩
    · rintro ⟨-, rfl⟩
      exact Or.inr rfl
  | false =>
    have heq : c.isOurTurn = ({ c with model := m } : TicTacToeAreaController).isOurTurn := by
      exact bne_eq_false_iff_eq.mp hne
    simp only [Bool.false_eq_true, if_false, List.not_mem_nil, or_false]
    constructor
    · intro hb
      exact absurd hb hboard
    · rintro ⟨hcontra, -⟩
      exact absurd heq hcontra


/-! ## C4 and C5: board reconstruction -/

theorem elim_getLast?_cons {β : Type} (a : TicTacToeMove) (l : List TicTacToeMove)
    (d1 d2 : β) (f : TicTacToeMove → β) :
    (a :: l).getLast?.elim d1 f = (a :: l).getLast?.elim d2 f := by
  rcases hlast : (a :: l).getLast? with _ | z
  · exact absurd (List.getLast?_eq_none_iff.mp hlast) (List.cons_ne_nil a l)
  · rfl

theorem boardOfMoves_foldl (moves : List TicTacToeMove) (b : TicTacToeBoard) (r col : Fin 3) :
    (moves.foldl applyMove b) r col =
      ((moves.filter (fun mv => mv.row == r && mv.col == col)).getLast?).elim
        (b r col) (fun mv => some mv.gamePiece) := by
  induction moves generalizing b with
  | nil => rfl
  | cons mv ms ih =>
    rw [List.foldl_cons, ih]
    by_cases hmv : (mv.row == r && mv.col == col) = true
    · have hcell : r = mv.row ∧ col = mv.col := by
        have h12 := hmv
        simp only [Bool.and_eq_true, beq_iff_eq] at h12
        exact ⟨h12.1.symm, h12.2.symm⟩
      rw [@List.filter_cons_of_pos _ (fun m => m.row == r && m.col == col) mv ms hmv]
      cases hfil : ms.filter (fun mv => mv.row == r && mv.col == col) with
      | nil =>
        obtain ⟨h1, h2⟩ := hcell
        subst h1; subst h2
        simp [hfil, applyMove]
      | cons a l =>
        exact elim_getLast?_cons a l _ _ _
    · have hcell : ¬(r = mv.row ∧ col = mv.col) := by
        rintro ⟨h1, h2⟩
        exact hmv (by simp [h1, h2])
      rw [@List.filter_cons_of_neg _ (fun m => m.row == r && m.col == col) mv ms hmv]
      cases hfil : ms.filter (fun mv => mv.row == r && mv.col == col) with
      | nil =>
        simp only [List.getLast?_nil, Option.elim_none, applyMove, if_neg hcell]
      | cons a l =>
        exact elim_getLast?_cons a l _ _ _

/-- C5: for every move history (including conflicting ones that target the
same cell twice), the board derivation is a total function, and each cell of
the derived board holds the piece of the last move in history order that
targets that cell (`none` when no move targets it). -/
theorem board_last_move_wins (c : TicTacToeAreaController) (r col : Fin 3) :
    c.board r col =
      ((c.gameMoves.filter (fun mv => mv.row == r && mv.col == col)).getLast?).map
        TicTacToeMove.gamePiece := by
  rw [TicTacToeAreaController.board, boardOfMoves, boardOfMoves_foldl]
  cases (c.gameMoves.filter (fun mv => mv.row == r && mv.col == col)).getLast? with
  | none => rfl
  | some mv => rfl

theorem filter_cell_eq_singleton (l : List TicTacToeMove)
    (hp : l.Pairwise (fun a b => ¬(a.row = b.row ∧ a.col = b.col)))
    (mv : TicTacToeMove) (hm : mv ∈ l) :
    l.filter (fun m => m.row == mv.row && m.col == mv.col) = [mv] := by
  induction l with
  | nil => cases hm
  | cons a t ih =>
    rcases List.pairwise_cons.mp hp with ⟨hhead, htail⟩
    rcases List.mem_cons.mp hm with rfl | hmt
    · rw [@List.filter_cons_of_pos _ (fun m => m.row == mv.row && m.col == mv.col) mv t (by simp)]
      have hnil : t.filter (fun m => m.row == mv.row && m.col == mv.col) = [] := by
        rw [List.filter_eq_nil_iff]
        intro m hmem hbeq
        simp only [Bool.and_eq_true, beq_iff_eq] at hbeq
        exact hhead m hmem ⟨hbeq.1.symm, hbeq.2.symm⟩
      rw [hnil]
    · have hneg : ¬(a.row == mv.row && a.col == mv.col) = true := by
        intro hbeq
        simp only [Bool.and_eq_true, beq_iff_eq] at hbeq
        exact hhead mv hmt ⟨hbeq.1, hbeq.2⟩
      rw [@List.filter_cons_of_neg _ (fun m => m.row == mv.row && m.col == mv.col) a t hneg]
      exact ih htail hmt

/-- C4: for every move history whose moves occupy pairwise-distinct cells,
the derived board has exactly those cells filled — each `grid[row][col]`
holding that move's piece — and every untargeted cell empty. -/
theorem board_of_distinct_moves (c : TicTacToeAreaController)
    (hdist : c.gameMoves.Pairwise (fun a b => ¬(a.row = b.row ∧ a.col = b.col))) :
    (∀ mv ∈ c.gameMoves, c.board mv.row mv.col = some mv.gamePiece)
    ∧ (∀ r col : Fin 3, (∀ mv ∈ c.gameMoves, ¬(mv.row = r ∧ mv.col = col)) →
        c.board r col = none) := by
  constructor
  · intro mv hm
    rw [TicTacToeAreaController.board, boardOfMoves, boardOfMoves_foldl,
      filter_cell_eq_singleton c.gameMoves hdist mv hm]
    rfl
  · intro r col hnone
    have hnil : c.gameMoves.filter (fun mv => mv.row == r && mv.col == col) = [] := by
      rw [List.filter_eq_nil_iff]
      intro m hmem hbeq
      simp only [Bool.and_eq_true, beq_iff_eq] at hbeq
      exact hnone m hmem ⟨hbeq.1, hbeq.2⟩
    rw [TicTacToeAreaController.board, boardOfMoves, boardOfMoves_foldl, hnil]
    rfl

/-- A controller holding a two-move history on distinct cells. -/
def twoMoveController : TicTacToeAreaController :=
  { model := { id := "area1",
               game := some { id := "g1", players := ["p1", "p2"],
                              state := { status := GameStatus.IN_PROGRESS, x := some "p1",
                                         o := some "p2",
                                         moves := [{ gamePiece := TicTacToePiece.X, row := 0, col := 0 },
                                                   { gamePiece := TicTacToePiece.O, row := 1, col := 2 }],
                                         winner := none } } },
    ourPlayer := "p1", instanceID := some "g1" }

/-- Witness for C4 at a concrete two-move history. -/
theorem board_of_distinct_moves_witness :
    twoMoveController.gameMoves.Pairwise (fun a b => ¬(a.row = b.row ∧ a.col = b.col))
    ∧ ((∀ mv ∈ twoMoveController.gameMoves,
          twoMoveController.board mv.row mv.col = some mv.gamePiece)
      ∧ (∀ r col : Fin 3,
          (∀ mv ∈ twoMoveController.gameMoves, ¬(mv.row = r ∧ mv.col = col)) →
          twoMoveController.board r col = none)) :=
  ⟨by decide, board_of_distinct_moves twoMoveController (by decide)⟩

/-! ## C6: whoseTurn parity -/

/-- A controller whose in-progress game names the empty string as the X
seat while a roster player carries that id: the seat holder exists (the `x`
accessor returns it) but JavaScript truthiness of `""` makes the
`gameState.x &&` guard of `whoseTurn` fail. -/
def emptySeatIdController : TicTacToeAreaController :=
  { model := { id := "area1",
               game := some { id := "g1", players := [""],
                              state := { status := GameStatus.IN_PROGRESS, x := some "",
                                         o := none, moves := [], winner := none } } },
    ourPlayer := "viewer", instanceID := none }

/-- C6 counterexample: a game state with status `IN_PROGRESS` and even move
count in which `whoseTurn` does not return the player holding the X seat
(the `x` accessor): the seat id is the falsy empty string, so the loop guard
skips every player and `whoseTurn` is `undefined`. -/
theorem whoseTurn_empty_seat_counterexample :
    emptySeatIdController.status = GameStatus.IN_PROGRESS
    ∧ emptySeatIdController.moveCount % 2 = 0
    ∧ emptySeatIdController.x = some ""
    ∧ emptySeatIdController.whoseTurn ≠ emptySeatIdController.x := by decide

/-- C6 as amended: provided neither seat identifier is the (JavaScript
falsy) empty string, `whoseTurn` returns the player holding the X seat when
the move count is even and the player holding the O seat when it is odd for
every state with status `IN_PROGRESS`, and `undefined` whenever the status
is not `IN_PROGRESS`. -/
theorem whoseTurn_parity (c : TicTacToeAreaController)
    (hx : c.model.game.bind (fun g => g.state.x) ≠ some "")
    (ho : c.model.game.bind (fun g => g.state.o) ≠ some "") :
    (c.status = GameStatus.IN_PROGRESS →
      c.whoseTurn = if c.moveCount % 2 = 0 then c.x else c.o)
    ∧ (c.status ≠ GameStatus.IN_PROGRESS → c.whoseTurn = none) := by
  cases hg : c.model.game with
  | none =>
    constructor
    · intro hst
      rw [TicTacToeAreaController.status, hg] at hst
      cases hst
    · intro _
      rw [TicTacToeAreaController.whoseTurn, hg]
  | some g =>
    have hst : c.status = g.state.status := by
      rw [TicTacToeAreaController.status, hg]
      rfl
    by_cases hip : g.state.status = GameStatus.IN_PROGRESS
    · constructor
      · intro _
        rw [TicTacToeAreaController.whoseTurn, hg]
        simp only [if_pos hip]
        by_cases hev : c.moveCount % 2 = 0
        · rw [if_pos hev]
          rw [TicTacToeAreaController.x]
          refine congrArg (fun pred => List.find? pred c.players) (funext fun p => ?_)
          rw [hg]
          cases hxv : g.state.x with
          | none => simp [jsTruthy, hev, hxv]
          | some s =>
            have hs : ¬(s = "") := by simpa [hg, hxv] using hx
            simp [jsTruthy, hev, hs, hxv]
        · rw [if_neg hev]
          rw [TicTacToeAreaController.o]
          refine congrArg (fun pred => List.find? pred c.players) (funext fun p => ?_)
          rw [hg]
          have hev' : (c.moveCount % 2 == 0) = false := by
            simpa using hev
          cases hov : g.state.o with
          | none => simp [jsTruthy, hev', hov]
          | some s =>
            have hs : ¬(s = "") := by simpa [hg, hov] using ho
            simp [jsTruthy, hev', hs, hov]
      · intro hne
        exact absurd (hst.trans hip) hne
    · constructor
      · intro hin
        exact absurd (hst.symm.trans hin) hip
      · intro _
        rw [TicTacToeAreaController.whoseTurn, hg]
        simp only [if_neg hip]

/-- A controller with an in-progress game, both seats held by non-empty
ids, and an empty move history. -/
def freshGameController : TicTacToeAreaController :=
  { model := { id := "area1",
               game := some { id := "g1", players := ["p1", "p2"],
                              state := { status := GameStatus.IN_PROGRESS, x := some "p1",
                                         o := some "p2", moves := [], winner := none } } },
    ourPlayer := "p1", instanceID := some "g1" }

/-- Witness for the amended C6 at a concrete in-progress game. -/
theorem whoseTurn_parity_witness :
    freshGameController.model.game.bind (fun g => g.state.x) ≠ some ""
    ∧ freshGameController.model.game.bind (fun g => g.state.o) ≠ some ""
    ∧ ((freshGameController.status = GameStatus.IN_PROGRESS →
          freshGameController.whoseTurn =
            if freshGameController.moveCount % 2 = 0 then freshGameController.x
            else freshGameController.o)
      ∧ (freshGameController.status ≠ GameStatus.IN_PROGRESS →
          freshGameController.whoseTurn = none)) :=
  ⟨by decide, by decide, whoseTurn_parity freshGameController (by decide) (by decide)⟩

/-! ## C7: leaderboard lemmas -/

theorem PlayerStats.ext_fields (a b : PlayerStats) (h1 : a.name = b.name)
    (h2 : a.wins = b.wins) (h3 : a.losses = b.losses) (h4 : a.ties = b.ties) : a = b := by
  cases a; cases b
  cases h1; cases h2; cases h3; cases h4
  rfl

namespace Leaderboard

theorem lookupScore_cons_self (a : String × Int) (t : List (String × Int)) :
    lookupScore (a :: t) a.1 = some a.2 := by
  rw [lookupScore, List.find?_cons_of_pos _ (by simp)]
  rfl

theorem lookupScore_mem (S : List (String × Int)) (hnd : (S.map Prod.fst).Nodup) :
    ∀ e ∈ S, lookupScore S e.1 = some e.2 := by
  induction S with
  | nil => intro e he; exact absurd he (List.not_mem_nil e)
  | cons a t ih =>
    have hnd' := hnd
    rw [List.map_cons, List.nodup_cons] at hnd'
    intro e he
    rcases List.mem_cons.mp he with rfl | het
    · exact lookupScore_cons_self e t
    · have hane : (a.1 == e.1) = false := by
        rw [beq_eq_false_iff_ne]
        intro haeq
        exact hnd'.1 (haeq ▸ List.mem_map_of_mem Prod.fst het)
      rw [lookupScore]
      simp only [List.find?_cons, hane]
      exact ih hnd'.2 e het

theorem lookupScore_not_mem (S : List (String × Int)) (p : String)
    (hp : p ∉ S.map Prod.fst) : lookupScore S p = none := by
  rw [lookupScore]
  rw [List.find?_eq_none.mpr]
  · rfl
  · intro e he hbeq
    exact hp (beq_iff_eq.mp hbeq ▸ List.mem_map_of_mem Prod.fst he)

theorem mapGet_map_apply (enc : List String) (H : String → PlayerStats) (k : String) :
    mapGet (enc.map (fun p => (p, H p))) k = if k ∈ enc then some (H k) else none := by
  induction enc with
  | nil => simp [mapGet]
  | cons a t ih =>
    by_cases hak : a = k
    · subst hak
      rw [List.map_cons, mapGet, List.find?_cons_of_pos _ (by simp)]
      simp
    · rw [List.map_cons, mapGet, List.find?_cons_of_neg _ (by simp [hak])]
      have hfold : ((t.map (fun p => (p, H p))).find? (fun e => e.1 == k)).map
          (fun e => e.2) = mapGet (t.map (fun p => (p, H p))) k := rfl
      rw [hfold, ih]
      have hka : ¬k = a := fun h => hak h.symm
      simp [List.mem_cons, hka]

theorem mapSet_map_apply (enc : List String) (H : String → PlayerStats)
    (k : String) (v : PlayerStats) :
    mapSet (enc.map (fun p => (p, H p))) k v
    = (if k ∈ enc then enc else enc ++ [k]).map (fun p => (p, if p = k then v else H p)) := by
  by_cases hk : k ∈ enc
  · have hany : ((enc.map (fun p => (p, H p))).any (fun e => e.1 == k)) = true :=
      List.any_eq_true.mpr ⟨(k, H k), List.mem_map_of_mem _ hk, by simp⟩
    rw [mapSet, if_pos hany, if_pos hk, List.map_map]
    apply List.map_congr_left
    intro p _
    by_cases hpk : p = k
    · subst hpk; simp
    · simp [hpk]
  · have hany : ((enc.map (fun p => (p, H p))).any (fun e => e.1 == k)) = false := by
      rw [List.any_eq_false]
      rintro ⟨q, w⟩ hq
      simp only [beq_iff_eq]
      intro hqk
      obtain ⟨p, hp, hpq⟩ := List.mem_map.mp hq
      cases hpq
      exact hk (hqk ▸ hp)
    rw [mapSet, if_neg (by simp [hany]), if_neg hk, List.map_append]
    congr 1
    · apply List.map_congr_left
      intro p hp
      have hpk : ¬(p = k) := fun h => hk (h ▸ hp)
      simp [hpk]
    · simp

theorem insertAll_cons (acc : List String) (p : String) (ks : List String) :
    insertAll acc (p :: ks) = insertAll (if p ∈ acc then acc else acc ++ [p]) ks := rfl

theorem mem_insertAll (ks : List String) : ∀ (acc : List String) (q : String),
    q ∈ insertAll acc ks ↔ q ∈ acc ∨ q ∈ ks := by
  induction ks with
  | nil => intro acc q; simp [insertAll]
  | cons p ks ih =>
    intro acc q
    rw [insertAll_cons, ih]
    by_cases hp : p ∈ acc
    · rw [if_pos hp]
      simp only [List.mem_cons]
      constructor
      · rintro (hq | hq)
        · exact Or.inl hq
        · exact Or.inr (Or.inr hq)
      · rintro (hq | rfl | hq)
        · exact Or.inl hq
        · exact Or.inl hp
        · exact Or.inr hq
    · rw [if_neg hp]
      simp only [List.mem_append, List.mem_cons, List.not_mem_nil, or_false]
      constructor
      · rintro ((hq | rfl) | hq)
        · exact Or.inl hq
        · exact Or.inr (Or.inl rfl)
        · exact Or.inr (Or.inr hq)
      · rintro (hq | rfl | hq)
        · exact Or.inl (Or.inl hq)
        · exact Or.inl (Or.inr rfl)
        · exact Or.inr hq

theorem insertAll_nodup (ks : List String) : ∀ (acc : List String),
    acc.Nodup → (insertAll acc ks).Nodup := by
  induction ks with
  | nil => intro acc h; exact h
  | cons p ks ih =>
    intro acc h
    rw [insertAll_cons]
    apply ih
    by_cases hp : p ∈ acc
    · rwa [if_pos hp]
    · rw [if_neg hp]
      refine List.Nodup.append h (List.nodup_singleton p) ?_
      intro a ha hb
      rw [List.mem_singleton] at hb
      exact hp (hb ▸ ha)

end Leaderboard

namespace Leaderboard

theorem tally_fold_fields (S : List (String × Int)) (p : String) (sp : Int)
    (es : List (String × Int)) :
    ∀ (st : PlayerStats), (∀ e ∈ es, lookupScore S e.1 = some e.2) →
    (es.foldl (tallyStep S p (some sp)) st).name = st.name
    ∧ (es.foldl (tallyStep S p (some sp)) st).wins
        = st.wins + es.countP (fun e => !(e.1 == p) && decide (e.2 < sp))
    ∧ (es.foldl (tallyStep S p (some sp)) st).losses
        = st.losses + es.countP (fun e => !(e.1 == p) && decide (sp < e.2))
    ∧ (es.foldl (tallyStep S p (some sp)) st).ties
        = st.ties + es.countP (fun e => !(e.1 == p) && (e.2 == sp)) := by
  induction es with
  | nil =>
    intro st _
    simp [List.countP_nil]
  | cons e es ih =>
    intro st hlk
    have hlk' : ∀ e' ∈ es, lookupScore S e'.1 = some e'.2 :=
      fun e' he' => hlk e' (List.mem_cons_of_mem _ he')
    have hlke : lookupScore S e.1 = some e.2 := hlk e (List.mem_cons_self e es)
    rw [List.foldl_cons]
    cases hpe : (p == e.1) with
    | true =>
      have hep : (e.1 == p) = true := by
        rw [beq_iff_eq] at hpe ⊢
        exact hpe.symm
      have hstepeq : tallyStep S p (some sp) st e = st := by
        rw [tallyStep, if_pos hpe]
      rw [hstepeq]
      obtain ⟨hn, hw, hl, ht⟩ := ih st hlk'
      refine ⟨hn, ?_, ?_, ?_⟩ <;>
        simp [List.countP_cons, hep, hw, hl, ht]
    | false =>
      have hep : (e.1 == p) = false := by
        rw [beq_eq_false_iff_ne] at hpe ⊢
        exact fun h => hpe h.symm
      rcases lt_trichotomy e.2 sp with hcase | hcase | hcase
      · have h1 : (!(e.1 == p) && decide (e.2 < sp)) = true := by
          simp [hep, hcase]
        have h2 : ¬((!(e.1 == p) && decide (sp < e.2)) = true) := by
          simp [hep]
          omega
        have h3 : ¬((!(e.1 == p) && (e.2 == sp)) = true) := by
          simp [hep]
          omega
        have hstepeq : tallyStep S p (some sp) st e = { st with wins := st.wins + 1 } := by
          rw [tallyStep, if_neg (by simp [hpe]), hlke]
          simp [jsGT, hcase]
        rw [hstepeq]
        obtain ⟨hn, hw, hl, ht⟩ := ih { st with wins := st.wins + 1 } hlk'
        refine ⟨by rw [hn], ?_, ?_, ?_⟩
        · have hc : List.countP (fun e => !(e.1 == p) && decide (e.2 < sp)) (e :: es)
              = List.countP (fun e => !(e.1 == p) && decide (e.2 < sp)) es + 1 := by
            simp [List.countP_cons, h1]
          rw [hw, hc]
          try dsimp only
          try omega
        · have hc : List.countP (fun e => !(e.1 == p) && decide (sp < e.2)) (e :: es)
              = List.countP (fun e => !(e.1 == p) && decide (sp < e.2)) es := by
            simp [List.countP_cons, h2]
          rw [hl, hc]
          try dsimp only
          try omega
        · have hc : List.countP (fun e => !(e.1 == p) && (e.2 == sp)) (e :: es)
              = List.countP (fun e => !(e.1 == p) && (e.2 == sp)) es := by
            simp [List.countP_cons, h3]
          rw [ht, hc]
          try dsimp only
          try omega
      · have h1 : ¬((!(e.1 == p) && decide (e.2 < sp)) = true) := by
          simp [hep]
          omega
        have h2 : ¬((!(e.1 == p) && decide (sp < e.2)) = true) := by
          simp [hep]
          omega
        have h3 : (!(e.1 == p) && (e.2 == sp)) = true := by
          simp [hep]
          omega
        have hstepeq : tallyStep S p (some sp) st e = { st with ties := st.ties + 1 } := by
          rw [tallyStep, if_neg (by simp [hpe]), hlke]
          simp [jsGT, jsLT, hcase]
        rw [hstepeq]
        obtain ⟨hn, hw, hl, ht⟩ := ih { st with ties := st.ties + 1 } hlk'
        refine ⟨by rw [hn], ?_, ?_, ?_⟩
        · have hc : List.countP (fun e => !(e.1 == p) && decide (e.2 < sp)) (e :: es)
              = List.countP (fun e => !(e.1 == p) && decide (e.2 < sp)) es := by
            simp [List.countP_cons, h1]
          rw [hw, hc]
          try dsimp only
          try omega
        · have hc : List.countP (fun e => !(e.1 == p) && decide (sp < e.2)) (e :: es)
              = List.countP (fun e => !(e.1 == p) && decide (sp < e.2)) es := by
            simp [List.countP_cons, h2]
          rw [hl, hc]
          try dsimp only
          try omega
        · have hc : List.countP (fun e => !(e.1 == p) && (e.2 == sp)) (e :: es)
              = List.countP (fun e => !(e.1 == p) && (e.2 == sp)) es + 1 := by
            simp [List.countP_cons, h3]
          rw [ht, hc]
          try dsimp only
          try omega
      · have h1 : ¬((!(e.1 == p) && decide (e.2 < sp)) = true) := by
          simp [hep]
          omega
        have h2 : (!(e.1 == p) && decide (sp < e.2)) = true := by
          simp [hep, hcase]
        have h3 : ¬((!(e.1 == p) && (e.2 == sp)) = true) := by
          simp [hep]
          omega
        have hnotlt : ¬(e.2 < sp) := by omega
        have hstepeq : tallyStep S p (some sp) st e = { st with losses := st.losses + 1 } := by
          rw [tallyStep, if_neg (by simp [hpe]), hlke]
          simp [jsGT, jsLT, hcase, hnotlt]
        rw [hstepeq]
        obtain ⟨hn, hw, hl, ht⟩ := ih { st with losses := st.losses + 1 } hlk'
        refine ⟨by rw [hn], ?_, ?_, ?_⟩
        · have hc : List.countP (fun e => !(e.1 == p) && decide (e.2 < sp)) (e :: es)
              = List.countP (fun e => !(e.1 == p) && decide (e.2 < sp)) es := by
            simp [List.countP_cons, h1]
          rw [hw, hc]
          try dsimp only
          try omega
        · have hc : List.countP (fun e => !(e.1 == p) && decide (sp < e.2)) (e :: es)
              = List.countP (fun e => !(e.1 == p) && decide (sp < e.2)) es + 1 := by
            simp [List.countP_cons, h2]
          rw [hl, hc]
          try dsimp only
          try omega
        · have hc : List.countP (fun e => !(e.1 == p) && (e.2 == sp)) (e :: es)
              = List.countP (fun e => !(e.1 == p) && (e.2 == sp)) es := by
            simp [List.countP_cons, h3]
          rw [ht, hc]
          try dsimp only
          try omega

theorem tallyAgainst_spec (r : GameResult) (hnd : (r.scores.map Prod.fst).Nodup)
    (p : String) (sp : Int) (hp : lookupScore r.scores p = some sp) (st : PlayerStats) :
    tallyAgainst r.scores p (lookupScore r.scores p) st =
      { name := st.name, wins := st.wins + specWinsIn r p,
        losses := st.losses + specLossesIn r p, ties := st.ties + specTiesIn r p } := by
  rw [hp, tallyAgainst]
  obtain ⟨hn, hw, hl, ht⟩ :=
    tally_fold_fields r.scores p sp r.scores st (lookupScore_mem r.scores hnd)
  apply PlayerStats.ext_fields
  · rw [hn]
  · rw [hw]
    simp [specWinsIn, hp]
  · rw [hl]
    simp [specLossesIn, hp]
  · rw [ht]
    simp [specTiesIn, hp]

end Leaderboard

namespace Leaderboard

theorem addResult_eq (m : List (String × PlayerStats)) (r : GameResult) :
    addResult m r = r.scores.foldl
      (fun m e => mapSet m e.1 (tallyAgainst r.scores e.1 (lookupScore r.scores e.1)
        ((mapGet m e.1).getD { name := e.1, wins := 0, losses := 0, ties := 0 }))) m := rfl

theorem addResult_go (S : List (String × Int)) (es : List (String × Int)) :
    ∀ (enc : List String) (H : String → PlayerStats),
    (es.map Prod.fst).Nodup →
    (∀ p, p ∉ enc → H p = { name := p, wins := 0, losses := 0, ties := 0 }) →
    es.foldl
      (fun m e => mapSet m e.1 (tallyAgainst S e.1 (lookupScore S e.1)
        ((mapGet m e.1).getD { name := e.1, wins := 0, losses := 0, ties := 0 })))
      (enc.map (fun p => (p, H p)))
    = (insertAll enc (es.map Prod.fst)).map
        (fun p => (p, if p ∈ es.map Prod.fst
                      then tallyAgainst S p (lookupScore S p) (H p) else H p)) := by
  induction es with
  | nil =>
    intro enc H _ _
    simp [insertAll]
  | cons e es ih =>
    intro enc H hnd hH
    have hnd' : (es.map Prod.fst).Nodup ∧ e.1 ∉ es.map Prod.fst := by
      rw [List.map_cons, List.nodup_cons] at hnd
      exact ⟨hnd.2, hnd.1⟩
    rw [List.foldl_cons]
    have hget : (mapGet (enc.map (fun p => (p, H p))) e.1).getD
        { name := e.1, wins := 0, losses := 0, ties := 0 } = H e.1 := by
      rw [mapGet_map_apply]
      by_cases he : e.1 ∈ enc
      · rw [if_pos he]
        rfl
      · rw [if_neg he, hH e.1 he]
        rfl
    rw [hget, mapSet_map_apply]
    have hesub : e.1 ∈ (if e.1 ∈ enc then enc else enc ++ [e.1]) := by
      by_cases he : e.1 ∈ enc
      · rw [if_pos he]
        exact he
      · rw [if_neg he]
        exact List.mem_append_right _ (List.mem_singleton_self _)
    have hsub : ∀ q, q ∈ enc → q ∈ (if e.1 ∈ enc then enc else enc ++ [e.1]) := by
      intro q hq
      by_cases he : e.1 ∈ enc
      · rwa [if_pos he]
      · rw [if_neg he]
        exact List.mem_append_left _ hq
    have hH' : ∀ p, p ∉ (if e.1 ∈ enc then enc else enc ++ [e.1]) →
        (if p = e.1 then tallyAgainst S e.1 (lookupScore S e.1) (H e.1) else H p)
          = { name := p, wins := 0, losses := 0, ties := 0 } := by
      intro p hp
      have hpe : ¬(p = e.1) := fun h => hp (h ▸ hesub)
      have hpenc : p ∉ enc := fun h => hp (hsub p h)
      rw [if_neg hpe]
      exact hH p hpenc
    rw [ih (if e.1 ∈ enc then enc else enc ++ [e.1])
        (fun p => if p = e.1 then tallyAgainst S e.1 (lookupScore S e.1) (H e.1) else H p)
        hnd'.1 hH']
    rw [show insertAll enc ((e :: es).map Prod.fst)
        = insertAll (if e.1 ∈ enc then enc else enc ++ [e.1]) (es.map Prod.fst) from rfl]
    apply List.map_congr_left
    intro p hp
    by_cases hpe : p = e.1
    · subst hpe
      rw [if_neg hnd'.2]
      have hmem : e.1 ∈ (e :: es).map Prod.fst := by
        rw [List.map_cons]
        exact List.mem_cons_self _ _
      rw [if_pos hmem, if_pos rfl]
    · have hmem : p ∈ es.map Prod.fst ↔ p ∈ (e :: es).map Prod.fst := by
        rw [List.map_cons, List.mem_cons]
        exact ⟨Or.inr, fun h => h.resolve_left hpe⟩
      by_cases hin : p ∈ es.map Prod.fst
      · rw [if_pos hin, if_pos (hmem.mp hin), if_neg hpe]
      · rw [if_neg hin, if_neg (fun h => hin (hmem.mpr h)), if_neg hpe]

theorem mem_encountered_aux (results : List GameResult) :
    ∀ (acc : List String) (q : String),
    q ∈ results.foldl (fun acc r => insertAll acc (r.scores.map Prod.fst)) acc
    ↔ q ∈ acc ∨ ∃ r ∈ results, q ∈ r.scores.map Prod.fst := by
  induction results with
  | nil =>
    intro acc q
    simp
  | cons r rs ih =>
    intro acc q
    rw [List.foldl_cons, ih, mem_insertAll]
    constructor
    · rintro ((hq | hq) | ⟨r', hr', hq⟩)
      · exact Or.inl hq
      · exact Or.inr ⟨r, List.mem_cons_self r rs, hq⟩
      · exact Or.inr ⟨r', List.mem_cons_of_mem _ hr', hq⟩
    · rintro (hq | ⟨r', hr', hq⟩)
      · exact Or.inl (Or.inl hq)
      · rcases List.mem_cons.mp hr' with rfl | hr'
        · exact Or.inl (Or.inr hq)
        · exact Or.inr ⟨r', hr', hq⟩

theorem mem_encountered (results : List GameResult) (q : String) :
    q ∈ encountered results ↔ ∃ r ∈ results, q ∈ r.scores.map Prod.fst := by
  rw [encountered, mem_encountered_aux]
  simp

theorem encountered_nodup (results : List GameResult) : (encountered results).Nodup := by
  rw [encountered]
  have haux : ∀ (acc : List String), acc.Nodup →
      (results.foldl (fun acc r => insertAll acc (r.scores.map Prod.fst)) acc).Nodup := by
    induction results with
    | nil => intro acc h; exact h
    | cons r rs ih =>
      intro acc h
      rw [List.foldl_cons]
      exact ih _ (insertAll_nodup _ acc h)
  exact haux [] List.nodup_nil

end Leaderboard

namespace Leaderboard

theorem specStats_not_encountered (results : List GameResult) (p : String)
    (hp : p ∉ encountered results) :
    specStats results p = { name := p, wins := 0, losses := 0, ties := 0 } := by
  have hall : ∀ r ∈ results, p ∉ r.scores.map Prod.fst := by
    intro r hr hmem
    exact hp ((mem_encountered results p).mpr ⟨r, hr, hmem⟩)
  apply PlayerStats.ext_fields
  · rfl
  · show (results.map (fun r => specWinsIn r p)).sum = 0
    apply List.sum_eq_zero
    intro n hn
    obtain ⟨r, hr, rfl⟩ := List.mem_map.mp hn
    simp [specWinsIn, lookupScore_not_mem r.scores p (hall r hr)]
  · show (results.map (fun r => specLossesIn r p)).sum = 0
    apply List.sum_eq_zero
    intro n hn
    obtain ⟨r, hr, rfl⟩ := List.mem_map.mp hn
    simp [specLossesIn, lookupScore_not_mem r.scores p (hall r hr)]
  · show (results.map (fun r => specTiesIn r p)).sum = 0
    apply List.sum_eq_zero
    intro n hn
    obtain ⟨r, hr, rfl⟩ := List.mem_map.mp hn
    simp [specTiesIn, lookupScore_not_mem r.scores p (hall r hr)]

theorem statsMap_canonical (results : List GameResult) :
    (∀ r ∈ results, (r.scores.map Prod.fst).Nodup) →
    statsMap results = (encountered results).map (fun p => (p, specStats results p)) := by
  induction results using List.reverseRecOn with
  | nil => intro _; rfl
  | append_singleton rs r ih =>
    intro hnd
    have hndrs : ∀ r' ∈ rs, (r'.scores.map Prod.fst).Nodup :=
      fun r' h => hnd r' (List.mem_append_left _ h)
    have hndr : (r.scores.map Prod.fst).Nodup :=
      hnd r (List.mem_append_right _ (List.mem_singleton_self r))
    have hdef : ∀ p, p ∉ encountered rs →
        specStats rs p = { name := p, wins := 0, losses := 0, ties := 0 } :=
      fun p hp => specStats_not_encountered rs p hp
    have h1 : statsMap (rs ++ [r]) = addResult (statsMap rs) r := by
      rw [statsMap, List.foldl_append]
      rfl
    rw [h1, ih hndrs, addResult_eq,
      addResult_go r.scores r.scores (encountered rs) (specStats rs) hndr hdef]
    have henc : encountered (rs ++ [r]) = insertAll (encountered rs) (r.scores.map Prod.fst) := by
      rw [encountered, encountered, List.foldl_append]
      rfl
    rw [henc]
    apply List.map_congr_left
    intro p hp
    by_cases hpk : p ∈ r.scores.map Prod.fst
    · rw [if_pos hpk]
      obtain ⟨epair, hepair, hfst⟩ := List.mem_map.mp hpk
      have hsp : lookupScore r.scores p = some epair.2 := by
        rw [← hfst]
        exact lookupScore_mem r.scores hndr epair hepair
      rw [tallyAgainst_spec r hndr p epair.2 hsp]
      refine congrArg (fun st => (p, st)) ?_
      apply PlayerStats.ext_fields
      · rfl
      · show (specStats rs p).wins + specWinsIn r p = (specStats (rs ++ [r]) p).wins
        simp [specStats, List.map_append, List.sum_append]
      · show (specStats rs p).losses + specLossesIn r p = (specStats (rs ++ [r]) p).losses
        simp [specStats, List.map_append, List.sum_append]
      · show (specStats rs p).ties + specTiesIn r p = (specStats (rs ++ [r]) p).ties
        simp [specStats, List.map_append, List.sum_append]
    · rw [if_neg hpk]
      refine congrArg (fun st => (p, st)) ?_
      have h0 : lookupScore r.scores p = none := lookupScore_not_mem r.scores p hpk
      apply PlayerStats.ext_fields <;>
        simp [specStats, List.map_append, List.sum_append,
          specWinsIn, specLossesIn, specTiesIn, h0]

end Leaderboard

/-- C7: the Leaderboard tallies per player by comparing, within each result,
every ordered pair of distinct players (strictly higher score: one win for
the player and — by the symmetric comparison — one loss for the opponent;
equal scores: one tie each); the table has one row per player encountered
across all results carrying exactly those tallies, is sorted descending by
win count, and on `[{A:1, B:0}]` it is A (1 win) before B (1 loss). -/
theorem leaderboard_pairwise_tally (results : List GameResult)
    (hnd : ∀ r ∈ results, (r.scores.map Prod.fst).Nodup) :
    (Leaderboard.sortedStats results).Perm
        ((Leaderboard.encountered results).map (Leaderboard.specStats results))
    ∧ (Leaderboard.encountered results).Nodup
    ∧ (Leaderboard.sortedStats results).Pairwise (fun a b => b.wins ≤ a.wins)
    ∧ Leaderboard.sortedStats [{ gameID := "g1", scores := [("A", 1), ("B", 0)] }]
        = [{ name := "A", wins := 1, losses := 0, ties := 0 },
           { name := "B", wins := 0, losses := 1, ties := 0 }] := by
  refine ⟨?_, Leaderboard.encountered_nodup results, ?_, by decide⟩
  · have hmap : (Leaderboard.statsMap results).map (fun e => e.2)
        = (Leaderboard.encountered results).map (Leaderboard.specStats results) := by
      rw [Leaderboard.statsMap_canonical results hnd, List.map_map]
      rfl
    rw [Leaderboard.sortedStats, hmap]
    exact List.perm_insertionSort _ _
  · rw [Leaderboard.sortedStats]
    haveI htot : IsTotal PlayerStats (fun a b => b.wins ≤ a.wins) :=
      ⟨fun a b => Nat.le_total b.wins a.wins⟩
    haveI htrans : IsTrans PlayerStats (fun a b => b.wins ≤ a.wins) :=
      ⟨fun a b c hab hbc => Nat.le_trans hbc hab⟩
    exact List.sorted_insertionSort _ _

/-- The example results list from the claim. -/
def exampleResults : List GameResult := [{ gameID := "g1", scores := [("A", 1), ("B", 0)] }]

/-- Witness for C7 at the claim's concrete example input. -/
theorem leaderboard_pairwise_tally_witness :
    (∀ r ∈ exampleResults, (r.scores.map Prod.fst).Nodup)
    ∧ ((Leaderboard.sortedStats exampleResults).Perm
          ((Leaderboard.encountered exampleResults).map (Leaderboard.specStats exampleResults))
      ∧ (Leaderboard.encountered exampleResults).Nodup
      ∧ (Leaderboard.sortedStats exampleResults).Pairwise (fun a b => b.wins ≤ a.wins)
      ∧ Leaderboard.sortedStats [{ gameID := "g1", scores := [("A", 1), ("B", 0)] }]
          = [{ name := "A", wins := 1, losses := 0, ties := 0 },
             { name := "B", wins := 0, losses := 1, ties := 0 }]) :=
  ⟨by decide, leaderboard_pairwise_tally exampleResults (by decide)⟩
